import Mathlib

/-!
Verification of the record field codec and filter/export engine of the
mcp-slack-lists server (src/slack_lists_server.py), via a shallow embedding
of the Python code into Lean.

Python dynamic values that occur in list items are modelled by the `Value`
type; a wire `Field` is a record with one optional slot per recognized key,
mirroring the JSON objects the code builds and reads.
-/

namespace SlackLists

/-- Value models the Python dynamic values flowing through the codec:
None, strings, booleans, integers and (nested) lists. -/
inductive Value where
  | null : Value
  | str (s : String) : Value
  | bool (b : Bool) : Value
  | int (n : Int) : Value
  | list (xs : List Value) : Value
deriving Repr

/-- RichTextElem models the innermost text element object produced by
create_text_field. -/
structure RichTextElem where
  type : String
  text : Value
deriving Repr

/-- RichTextSection models the rich_text_section object produced by
create_text_field. -/
structure RichTextSection where
  type : String
  elements : List RichTextElem
deriving Repr

/-- RichTextBlock models the outer rich_text object produced by
create_text_field. -/
structure RichTextBlock where
  type : String
  elements : List RichTextSection
deriving Repr

/-- Field models one wire field dict: the column id plus at most one of the
recognized value slots.  A slot being `some` models the key being present in
the Python dict; for the list-valued slots the stored list may be empty
(present key, empty list), matching the truthiness tests in the code. -/
structure Field where
  column_id : String
  rich_text : Option (List RichTextBlock)
  text : Option Value
  value : Option Value
  date : Option (List Value)
  user : Option (List Value)
  select : Option (List Value)
  checkbox : Option Bool
  number : Option (List Value)
  email : Option (List Value)
  phone : Option (List Value)
deriving Repr

/-- Item models one list item as returned by the store: id, epoch creation
timestamp, creator id, and the ordered field sequence. -/
structure Item where
  id : String
  date_created : Int
  created_by : String
  fields : List Field
deriving Repr

/-- emptyWire is the wire field with only the column id set; the encoders
below populate exactly one slot of it, as each Python helper builds a dict
with exactly the keys it mentions. -/
def emptyWire (column_id : String) : Field :=
  ⟨column_id, Option.none, Option.none, Option.none, Option.none, Option.none,
   Option.none, Option.none, Option.none, Option.none, Option.none⟩

/-- Embeds create_text_field (slack_lists_server.py lines 156-170): a field
whose only value slot is the nested rich_text blob.  The Python annotation
says the text argument is a str, but callers pass JSON values through
unchanged, so it is modelled as a Value. -/
def create_text_field (column_id : String) (text : Value) : Field :=
  ⟨column_id,
   Option.some [⟨"rich_text", [⟨"rich_text_section", [⟨"text", text⟩]⟩]⟩],
   Option.none, Option.none, Option.none, Option.none, Option.none,
   Option.none, Option.none, Option.none, Option.none⟩

/-- Embeds create_date_field (lines 172-177): the date slot holds the
singleton list of the given date value. -/
def create_date_field (column_id : String) (date : Value) : Field :=
  ⟨column_id, Option.none, Option.none, Option.none, Option.some [date],
   Option.none, Option.none, Option.none, Option.none, Option.none, Option.none⟩

/-- Embeds create_user_field (lines 179-184): the user slot holds the given
id list. -/
def create_user_field (column_id : String) (user_ids : List Value) : Field :=
  ⟨column_id, Option.none, Option.none, Option.none, Option.none,
   Option.some user_ids, Option.none, Option.none, Option.none, Option.none,
   Option.none⟩

/-- Embeds create_select_field (lines 186-191): the select slot holds the
given option id list. -/
def create_select_field (column_id : String) (option_ids : List Value) : Field :=
  ⟨column_id, Option.none, Option.none, Option.none, Option.none, Option.none,
   Option.some option_ids, Option.none, Option.none, Option.none, Option.none⟩

/-- Embeds create_checkbox_field (lines 193-198): the checkbox slot holds the
boolean. -/
def create_checkbox_field (column_id : String) (checked : Bool) : Field :=
  ⟨column_id, Option.none, Option.none, Option.none, Option.none, Option.none,
   Option.none, Option.some checked, Option.none, Option.none, Option.none⟩

/-- Embeds the field loop of extract_field_value (lines 204-227): scan the
field sequence; on the first field whose column id matches, run the
if/elif chain over the value slots.  List-valued slots are taken only when
the key is present and the list nonempty (the Python truthiness test);
checkbox, text and value only need the key present.  The final else reads
field.get of the value key, which at that point is absent, hence None. -/
def extractLoop : List Field → String → Value
  | [], _ => Value.null
  | f :: rest, column_id =>
    if f.column_id == column_id then
      match f.text with
      | Option.some v => v
      | Option.none =>
        match f.value with
        | Option.some v => v
        | Option.none =>
          match f.date with
          | Option.some (d :: _) => d
          | _ =>
            match f.user with
            | Option.some (u :: us) => Value.list (u :: us)
            | _ =>
              match f.select with
              | Option.some (s :: ss) => Value.list (s :: ss)
              | _ =>
                match f.checkbox with
                | Option.some b => Value.bool b
                | Option.none =>
                  match f.number with
                  | Option.some (n :: _) => n
                  | _ =>
                    match f.email with
                    | Option.some (e :: _) => e
                    | _ =>
                      match f.phone with
                      | Option.some (p :: _) => p
                      | _ =>
                        match f.value with
                        | Option.some v => v
                        | Option.none => Value.null
    else extractLoop rest column_id

/-- Embeds extract_field_value (lines 200-228); Python None is modelled by
Value.null. -/
def extract_field_value (item : Item) (column_id : String) : Value :=
  extractLoop item.fields column_id

/-! Python stringification, as used by the filter and CSV code. -/

/-- singleQuote is ASCII character 39, the quote Python repr prefers for
strings. -/
def singleQuote : Char := Char.ofNat 39

/-- doubleQuote is the ASCII double quote character. -/
def doubleQuote : Char := Char.ofNat 34

/-- pyEscapeChar models how Python repr escapes one character of a string
rendered with the given quote character (backslash, the quote itself, and
the common control characters). -/
def pyEscapeChar (quote : Char) (c : Char) : String :=
  if c = Char.ofNat 92 then "\\\\"
  else if c = quote then "\\" ++ String.mk [quote]
  else if c = Char.ofNat 10 then "\\n"
  else if c = Char.ofNat 13 then "\\r"
  else if c = Char.ofNat 9 then "\\t"
  else String.mk [c]

/-- pyReprStr models Python repr of a string: single-quoted, unless the
string contains a single quote and no double quote, in which case
double-quoted; special characters escaped. -/
def pyReprStr (s : String) : String :=
  let quote := if s.data.contains singleQuote && !(s.data.contains doubleQuote)
               then doubleQuote else singleQuote
  String.mk [quote] ++ String.join (s.data.map (pyEscapeChar quote))
    ++ String.mk [quote]

/-- intRepr models Python str and repr of an int, which agree with the
decimal rendering of toString. -/
def intRepr (n : Int) : String := toString n

mutual

/-- pyRepr models the Python repr of a Value (used for elements of lists
under str). -/
def pyRepr : Value → String
  | Value.null => "None"
  | Value.str s => pyReprStr s
  | Value.bool b => if b then "True" else "False"
  | Value.int n => intRepr n
  | Value.list xs => "[" ++ pyReprList xs ++ "]"
termination_by structural v => v

/-- pyReprList joins the reprs of list elements with a comma and space, as
the Python list repr does. -/
def pyReprList : List Value → String
  | [] => ""
  | [v] => pyRepr v
  | v :: w :: vs => pyRepr v ++ ", " ++ pyReprList (w :: vs)
termination_by structural l => l

end

/-- pyStr models the Python str function on a Value: identity on strings,
repr on everything else (None, booleans, ints, lists). -/
def pyStr : Value → String
  | Value.str s => s
  | v => pyRepr v

/-- pyLower models Python str.lower, character by character; the values the
claims exercise are ASCII, where Char.toLower agrees with Python. -/
def pyLower (s : String) : String := String.mk (s.data.map Char.toLower)

/-- charsBeginWith decides whether the first list begins with the second. -/
def charsBeginWith : List Char → List Char → Bool
  | _, [] => true
  | [], _ :: _ => false
  | c :: cs, d :: ds => c == d && charsBeginWith cs ds

/-- charsContainSub decides whether the second character list occurs
contiguously inside the first. -/
def charsContainSub : List Char → List Char → Bool
  | [], needle => charsBeginWith [] needle
  | c :: rest, needle =>
    charsBeginWith (c :: rest) needle || charsContainSub rest needle

/-- strContains models the Python substring test (needle in hay); the empty
needle is in every string. -/
def strContains (hay needle : String) : Bool :=
  charsContainSub hay.data needle.data

/-- pyEqEmptyStr models the Python comparison (v == empty string): true
exactly for the empty string; values of any other type compare unequal. -/
def pyEqEmptyStr : Value → Bool
  | Value.str s => s == ""
  | _ => false

/-- isNone models the Python identity test (v is None). -/
def isNone : Value → Bool
  | Value.null => true
  | _ => false

/-! Filter engine, embedded from filter_list_items (lines 528-554). -/

/-- Embeds the per-item match logic of filter_list_items (lines 533-551):
the if/elif operator dispatch, with matches initialized to False so that an
unrecognized operator matches nothing.  filter_value is a str parameter of
the tool, so the Python str around it is the identity. -/
def matchesFilter (field_value : Value) (filter_operator filter_value : String) : Bool :=
  if filter_operator == "exists" then
    !(isNone field_value) && !(pyEqEmptyStr field_value)
  else if filter_operator == "not_exists" then
    isNone field_value || pyEqEmptyStr field_value
  else if filter_operator == "equals" then
    pyLower (pyStr field_value) == pyLower (pyStr (Value.str filter_value))
  else if filter_operator == "not_equals" then
    !(pyLower (pyStr field_value) == pyLower (pyStr (Value.str filter_value)))
  else if filter_operator == "contains" then
    if !(isNone field_value) then
      strContains (pyLower (pyStr field_value)) (pyLower (pyStr (Value.str filter_value)))
    else false
  else if filter_operator == "not_contains" then
    if isNone field_value then true
    else !(strContains (pyLower (pyStr field_value)) (pyLower (pyStr (Value.str filter_value))))
  else false

/-- Embeds the filtering loop of filter_list_items (lines 528-554): walk the
fetched items in order, appending each item whose extracted field value
matches. -/
def filterLoop (items : List Item) (filter_column_id filter_value filter_operator : String) : List Item :=
  match items with
  | [] => []
  | item :: rest =>
    if matchesFilter (extract_field_value item filter_column_id) filter_operator filter_value then
      item :: filterLoop rest filter_column_id filter_value filter_operator
    else
      filterLoop rest filter_column_id filter_value filter_operator

/-- applyFilter is the name the spec gives to the filtering stage of
filter_list_items; it is the loop above applied to a materialized record
sequence. -/
def applyFilter (items : List Item) (filter_column_id filter_value filter_operator : String) : List Item :=
  filterLoop items filter_column_id filter_value filter_operator

/-- specMatches is the operator table of spec section 4.3, written from the
words of the spec (comparisons lowercased after stringification; exists
means not null and not empty string; contains requires a non-null value;
not_contains is vacuously true on null). -/
def specMatches (v : Value) (op val : String) : Bool :=
  if op == "exists" then !(isNone v) && !(pyEqEmptyStr v)
  else if op == "not_exists" then isNone v || pyEqEmptyStr v
  else if op == "equals" then pyLower (pyStr v) == pyLower val
  else if op == "not_equals" then !(pyLower (pyStr v) == pyLower val)
  else if op == "contains" then
    !(isNone v) && strContains (pyLower (pyStr v)) (pyLower val)
  else if op == "not_contains" then
    isNone v || !(strContains (pyLower (pyStr v)) (pyLower val))
  else false

/-! Paginated fetch, embedded from filter_list_items lines 509-522.  The
upstream store is external to the repository; it is modelled as an honest
paginated backend over a fixed item sequence: a request with a limit and a
cursor (a position, starting at 0 when the cursor is absent) returns the
next at-most-limit items and the next position as cursor, or no cursor when
the sequence is exhausted. -/

/-- Page is one store response: the items of the page and the optional next
cursor. -/
structure Page where
  items : List Item
  next_cursor : Option Nat

/-- storePage models one slackLists.items.list call against a store holding
the item sequence avail: it honors the requested limit and returns a next
cursor exactly when items remain. -/
def storePage (avail : List Item) (limit : Nat) (cursor : Option Nat) : Page :=
  let pos := cursor.getD 0
  let page := (avail.drop pos).take limit
  let newPos := pos + page.length
  ⟨page, if newPos < avail.length then Option.some newPos else Option.none⟩

/-- Embeds the accumulation loop of filter_list_items (lines 509-522): while
fewer than max_items records are accumulated, request a page of size
min 100 remaining, extend, and stop when the store returns no cursor or no
items.  The loop runs at most max_items + 1 iterations because every
continuing iteration appends a nonempty page, so the fuel argument below
never runs out when started at max_items + 1. -/
def fetchLoop (avail : List Item) (max_items : Nat) :
    Nat → List Item → Option Nat → List Item
  | 0, acc, _ => acc
  | fuel + 1, acc, cursor =>
    if acc.length < max_items then
      let batch_size := min 100 (max_items - acc.length)
      let p := storePage avail batch_size cursor
      let acc2 := acc ++ p.items
      match p.next_cursor, p.items with
      | Option.none, _ => acc2
      | Option.some _, [] => acc2
      | Option.some c, _ :: _ => fetchLoop avail max_items fuel acc2 (Option.some c)
    else acc

/-- paginatedFetch is the name the spec gives to the accumulation stage of
filter_list_items: the loop above started with an empty accumulator and no
cursor. -/
def paginatedFetch (avail : List Item) (max_items : Nat) : List Item :=
  fetchLoop avail max_items (max_items + 1) [] Option.none

/-! Additional-field encoding, embedded from create_list_item lines 264-286
(the same loop appears in create_multiple_list_items lines 358-374, without
even the warning on the unknown branch). -/

/-- FieldDef is one parsed entry of the additional_fields JSON array:
column id, type tag, and raw value. -/
structure FieldDef where
  column_id : String
  type : String
  value : Value
deriving Repr

/-- asList models the Python normalization (value if isinstance(value, list)
else a one-element list of value). -/
def asList : Value → List Value
  | Value.list xs => xs
  | v => [v]

/-- pyTruthy models Python bool(value). -/
def pyTruthy : Value → Bool
  | Value.null => false
  | Value.str s => !(s == "")
  | Value.bool b => b
  | Value.int n => !(n == 0)
  | Value.list xs => !xs.isEmpty

/-- Embeds the additional-field loop of create_list_item (lines 268-286):
each known type tag appends the corresponding encoder's field; any other
type tag only logs a warning and appends nothing. -/
def buildAdditionalFields : List FieldDef → List Field
  | [] => []
  | fd :: rest =>
    if fd.type == "text" then
      create_text_field fd.column_id fd.value :: buildAdditionalFields rest
    else if fd.type == "date" then
      create_date_field fd.column_id fd.value :: buildAdditionalFields rest
    else if fd.type == "user" then
      create_user_field fd.column_id (asList fd.value) :: buildAdditionalFields rest
    else if fd.type == "select" then
      create_select_field fd.column_id (asList fd.value) :: buildAdditionalFields rest
    else if fd.type == "checkbox" then
      create_checkbox_field fd.column_id (pyTruthy fd.value) :: buildAdditionalFields rest
    else
      buildAdditionalFields rest

/-- Embeds the full field-list construction of create_list_item (lines
262-286): the title text field followed by the encoded additional fields. -/
def create_item_fields (title_column_id : String) (title : String)
    (extra : List FieldDef) : List Field :=
  create_text_field title_column_id (Value.str title) :: buildAdditionalFields extra

/-! Request error normalization, embedded from SlackListsClient._make_request
(lines 73-98).  The network and the upstream service are external; one call
is modelled by the outcome the environment produces for it: a transport
error raised by the HTTP library, a response whose body is not valid JSON,
or a response with a status code and a parsed body carrying the ok flag and
optional error code. -/

/-- HttpOutcome is what the environment does to a single HTTP request. -/
inductive HttpOutcome where
  | transportError (msg : String) : HttpOutcome
  | invalidJson (status : Nat) (msg : String) : HttpOutcome
  | response (status : Nat) (ok : Bool) (error : Option String) (payload : String) : HttpOutcome

/-- StoreError is the single error kind of the client, SlackListsError,
carrying a human-readable message. -/
structure StoreError where
  msg : String
deriving Repr

/-- ApiData is a successful parsed response body. -/
structure ApiData where
  ok : Bool
  error : Option String
  payload : String
deriving Repr

/-- statusIsSuccess models httpx Response.is_success: a 2xx status.
raise_for_status raises HTTPStatusError exactly when it is false. -/
def statusIsSuccess (status : Nat) : Bool :=
  200 ≤ status && status ≤ 299

/-- statusErrMsg models the message of the httpx HTTPStatusError raised by
raise_for_status, which names the offending status code. -/
def statusErrMsg (status : Nat) : String :=
  "HTTP status " ++ toString status ++ " while requesting URL"

/-- Embeds _make_request (lines 73-98).  Control flow of the Python try
block: a transport error is caught as httpx.HTTPError and re-raised as
SlackListsError with an HTTP error prefix; raise_for_status turns a non-2xx
status into an httpx.HTTPStatusError caught the same way; a JSON decode
failure of a 2xx body falls to the generic except clause; a parsed body with
ok not true raises SlackListsError with the upstream error code (default
Unknown error), which the generic except clause catches and re-wraps with a
Request failed prefix; only a 2xx, valid-JSON, ok body returns data. -/
def make_request : HttpOutcome → Except StoreError ApiData
  | HttpOutcome.transportError msg =>
    Except.error ⟨"HTTP error: " ++ msg⟩
  | HttpOutcome.invalidJson status msg =>
    if statusIsSuccess status then
      Except.error ⟨"Request failed: " ++ msg⟩
    else
      Except.error ⟨"HTTP error: " ++ statusErrMsg status⟩
  | HttpOutcome.response status ok error payload =>
    if statusIsSuccess status then
      if ok then
        Except.ok ⟨ok, error, payload⟩
      else
        Except.error ⟨"Request failed: " ++ ("Slack API error: " ++ error.getD "Unknown error")⟩
    else
      Except.error ⟨"HTTP error: " ++ statusErrMsg status⟩

/-! CSV export, embedded from export_list_items lines 691-723.  The
created_date cell runs datetime.fromtimestamp(..).isoformat(), a local-time
rendering of the epoch timestamp done by the language runtime; it is passed
in as the function iso below, and every property proved holds for every such
rendering. -/

/-- pyQuote wraps a rendered cell in double quotes, as the f-strings of the
CSV writer do for every cell regardless of type. -/
def pyQuote (s : String) : String := "\"" ++ s ++ "\""

/-- Embeds the cell rendering of the data-row loop (lines 715-719): a
list value is joined with comma-space using str of each element, then the
cell is quoted; None renders as an empty quoted cell; any other value is
quoted after str. -/
def renderCell : Value → String
  | Value.list xs => pyQuote (String.intercalate ", " (xs.map pyStr))
  | Value.null => pyQuote ""
  | v => pyQuote (pyStr v)

/-- charsLe is the lexicographic comparison of character lists by code
point, the order Python sorted() uses on strings. -/
def charsLe : List Char → List Char → Bool
  | [], _ => true
  | _ :: _, [] => false
  | c :: cs, d :: ds => if c = d then charsLe cs ds else c < d

/-- strLe compares strings lexicographically by code point. -/
def strLe (a b : String) : Bool := charsLe a.data b.data

/-- strLeRel is strLe as a relation, for the sorting lemmas. -/
def strLeRel : String → String → Prop := fun a b => strLe a b = true

instance : DecidableRel strLeRel := fun a b => instDecidableEqBool (strLe a b) true

/-- Embeds the column collection of export_list_items (lines 692-698): the
set of column ids over all fields of all items, sorted; the Python set is
modelled by dedup and sorted() by an insertion sort under the lexicographic
order. -/
def collectColumns (items : List Item) : List String :=
  List.insertionSort strLeRel
    (((items.map (fun it => it.fields.map (fun f => f.column_id))).flatten).dedup)

/-- headerCells is the fixed leading columns followed by the collected
column ids, each quoted (line 704-705). -/
def headerCells (cols : List String) : List String :=
  (["item_id", "created_date", "created_by"] ++ cols).map pyQuote

/-- rowCells is the cell list of one data row (lines 708-719): quoted id,
quoted ISO creation date, quoted creator, then one rendered cell per
collected column from the extracted field value. -/
def rowCells (iso : Int → String) (cols : List String) (item : Item) : List String :=
  pyQuote item.id :: pyQuote (iso item.date_created) :: pyQuote item.created_by ::
    cols.map (fun c => renderCell (extract_field_value item c))

/-- Embeds the csv_lines construction of export_list_items (lines 700-721):
the comma-joined header followed by one comma-joined row per item. -/
def export_csv_lines (iso : Int → String) (items : List Item) : List String :=
  String.intercalate "," (headerCells (collectColumns items)) ::
    items.map (fun it => String.intercalate "," (rowCells iso (collectColumns items) it))

/-- specSlotValue is the slot priority of spec section 4.2 and claim C4,
written from the words of the claim: the first present slot among freeform
text, generic value, first date element, full user list, full select list,
checkbox boolean, first number element, first email element, first phone
element; else the generic value key, absent here, hence null. -/
def specSlotValue (f : Field) : Value :=
  match f.text with
  | Option.some v => v
  | Option.none =>
  match f.value with
  | Option.some v => v
  | Option.none =>
  match f.date with
  | Option.some (d :: _) => d
  | _ =>
  match f.user with
  | Option.some (u :: us) => Value.list (u :: us)
  | _ =>
  match f.select with
  | Option.some (s :: ss) => Value.list (s :: ss)
  | _ =>
  match f.checkbox with
  | Option.some b => Value.bool b
  | Option.none =>
  match f.number with
  | Option.some (n :: _) => n
  | _ =>
  match f.email with
  | Option.some (e :: _) => e
  | _ =>
  match f.phone with
  | Option.some (p :: _) => p
  | _ => Value.null

/-! Helper lemmas. -/

/-- The filtering loop is List.filter of the per-item match. -/
lemma filterLoop_eq_filter (items : List Item) (cid val op : String) :
    filterLoop items cid val op =
      items.filter (fun it => matchesFilter (extract_field_value it cid) op val) := by
  induction items with
  | nil => rfl
  | cons it rest ih =>
    by_cases h : matchesFilter (extract_field_value it cid) op val
    · simp [filterLoop, h, List.filter, ih]
    · simp [filterLoop, h, List.filter, ih]

/-- The per-item match of the code agrees with the operator table of the
spec on every value and operator (both are false on unrecognized
operators). -/
lemma matchesFilter_eq_specMatches (v : Value) (op val : String) :
    matchesFilter v op val = specMatches v op val := by
  have hs : pyStr (Value.str val) = val := rfl
  unfold matchesFilter specMatches
  rw [hs]
  cases hv : isNone v <;> simp [hv]

/-- charsLe is total. -/
lemma charsLe_total (a b : List Char) : charsLe a b = true ∨ charsLe b a = true := by
  induction a generalizing b with
  | nil => left; rfl
  | cons c cs ih =>
    cases b with
    | nil => right; rfl
    | cons d ds =>
      by_cases hcd : c = d
      · subst hcd
        rcases ih ds with h | h
        · left; simpa [charsLe] using h
        · right; simpa [charsLe] using h
      · rcases lt_trichotomy c d with h | h | h
        · left; simp [charsLe, hcd, h]
        · exact absurd h hcd
        · right
          have hdc : ¬ d = c := fun he => hcd he.symm
          simp [charsLe, hdc, h]

/-- charsLe is transitive. -/
lemma charsLe_trans (a b c : List Char) (hab : charsLe a b = true)
    (hbc : charsLe b c = true) : charsLe a c = true := by
  induction a generalizing b c with
  | nil => rfl
  | cons x xs ih =>
    cases b with
    | nil => simp [charsLe] at hab
    | cons y ys =>
      cases c with
      | nil => simp [charsLe] at hbc
      | cons z zs =>
        by_cases hxy : x = y
        · subst hxy
          by_cases hyz : x = z
          · subst hyz
            simp [charsLe] at hab hbc ⊢
            exact ih ys zs hab hbc
          · simp [charsLe, hyz] at hbc ⊢
            exact hbc
        · simp [charsLe, hxy] at hab
          by_cases hyz : y = z
          · subst hyz
            simp [charsLe, hxy]
            exact hab
          · simp [charsLe, hyz] at hbc
            have hxz : x < z := lt_trans hab hbc
            have hxz2 : ¬ x = z := ne_of_lt hxz
            simp [charsLe, hxz2, hxz]

instance : IsTotal String strLeRel :=
  ⟨fun a b => charsLe_total a.data b.data⟩

instance : IsTrans String strLeRel :=
  ⟨fun a b c => charsLe_trans a.data b.data c.data⟩

/-- Every character list begins with itself. -/
lemma charsBeginWith_refl (l : List Char) : charsBeginWith l l = true := by
  induction l with
  | nil => rfl
  | cons c cs ih => simp [charsBeginWith, ih]

/-- A character list that ends with the needle contains it. -/
lemma charsContainSub_append (p s : List Char) : charsContainSub (p ++ s) s = true := by
  induction p with
  | nil =>
    cases s with
    | nil => rfl
    | cons c cs => simp [charsContainSub, charsBeginWith_refl]
  | cons c p ih => simp [charsContainSub, ih]

/-- A string that ends with the needle contains it. -/
lemma strContains_append_right (pre s : String) : strContains (pre ++ s) s = true := by
  have hd : (pre ++ s).data = pre.data ++ s.data := by
    cases pre; cases s; rfl
  rw [strContains, hd]
  exact charsContainSub_append pre.data s.data

/-- isNone is the test for the null value. -/
lemma isNone_eq_true_iff (v : Value) : isNone v = true ↔ v = Value.null := by
  cases v <;> simp [isNone]

/-- pyEqEmptyStr is the test for the empty-string value. -/
lemma pyEqEmptyStr_eq_true_iff (v : Value) : pyEqEmptyStr v = true ↔ v = Value.str "" := by
  cases v <;> simp [pyEqEmptyStr]

/-- A filter and its negation split the length of a list. -/
lemma length_filter_partition {α : Type} (p : α → Bool) (l : List α) :
    (l.filter p).length + (l.filter (fun a => !(p a))).length = l.length := by
  induction l with
  | nil => rfl
  | cons a l ih =>
    cases h : p a <;> simp [List.filter, h] <;> omega

/-- Every rendered CSV cell is a quoted string. -/
lemma renderCell_quoted (v : Value) : ∃ t, renderCell v = pyQuote t := by
  cases v with
  | null => exact ⟨"", rfl⟩
  | str s => exact ⟨pyStr (Value.str s), rfl⟩
  | bool b => exact ⟨pyStr (Value.bool b), rfl⟩
  | int n => exact ⟨pyStr (Value.int n), rfl⟩
  | list xs => exact ⟨String.intercalate ", " (xs.map pyStr), rfl⟩

/-- Invariant of the accumulation loop: started on a prefix of the store
with a consistent cursor and enough fuel, the loop ends on the prefix of
length max n (min m avail.length). -/
lemma fetchLoop_take (avail : List Item) (m : Nat) :
    ∀ (fuel n : Nat) (co : Option Nat),
      co.getD 0 = n →
      (co = Option.none → n = 0) →
      (∀ c, co = Option.some c → n < avail.length) →
      m + 1 ≤ n + fuel →
      fetchLoop avail m fuel (avail.take n) co =
        avail.take (max n (min m avail.length)) := by
  intro fuel
  induction fuel with
  | zero =>
    intro n co hco hnone hsome hfuel
    have hmn : min m avail.length ≤ n :=
      le_trans (min_le_left _ _) (by omega)
    rw [fetchLoop, max_eq_left hmn]
  | succ fuel ih =>
    intro n co hco hnone hsome hfuel
    have hnlen : n ≤ avail.length := by
      cases co with
      | none => rw [hnone rfl]; exact Nat.zero_le _
      | some c => exact le_of_lt (hsome c rfl)
    have hacc : (avail.take n).length = n := by
      rw [List.length_take]
      exact min_eq_left hnlen
    by_cases hlt : n < m
    · by_cases hex : avail.length ≤ n
      · -- the store is exhausted: only possible at position zero on an empty store
        cases co with
        | some c => exact absurd (hsome c rfl) (by omega)
        | none =>
          have hn0 : n = 0 := hnone rfl
          have hlen0 : avail.length = 0 := by omega
          have havail : avail = [] := List.length_eq_zero.mp hlen0
          subst havail
          subst hn0
          simp [fetchLoop, storePage]
      · push_neg at hex
        have hpos : (storePage avail (min 100 (m - (avail.take n).length)) co).items
            = (avail.drop n).take (min 100 (m - n)) := by
          rw [storePage, hco, hacc]
        set page := (avail.drop n).take (min 100 (m - n)) with hpage
        have hplb : page.length ≤ min 100 (m - n) := by
          rw [hpage]
          exact List.length_take_le _ _
        have hbm : min 100 (m - n) ≤ m - n := min_le_right _ _
        have hplm : n + page.length ≤ m := by
          have := le_trans hplb hbm
          omega
        have hpldrop : page.length ≤ avail.length - n := by
          rw [hpage, List.length_take, List.length_drop]
          exact min_le_right _ _
        have hnewle : n + page.length ≤ avail.length := by omega
        have hplpos : 1 ≤ page.length := by
          rw [hpage, List.length_take, List.length_drop]
          refine le_min (le_min ?_ ?_) ?_ <;> omega
        have hacc2 : avail.take n ++ page = avail.take (n + page.length) := by
          have h1 : page = (avail.drop n).take page.length := by
            conv_lhs => rw [← List.take_length page]
            rw [hpage, List.take_take, min_eq_left hplb]
          rw [List.take_add, ← h1]
        have hcur : (storePage avail (min 100 (m - (avail.take n).length)) co).next_cursor
            = if n + page.length < avail.length then Option.some (n + page.length)
              else Option.none := by
          rw [storePage, hco, hacc, ← hpage]
        have hunfold : fetchLoop avail m (fuel + 1) (avail.take n) co
            = (if (avail.take n).length < m then
                match (storePage avail (min 100 (m - (avail.take n).length)) co).next_cursor,
                      (storePage avail (min 100 (m - (avail.take n).length)) co).items with
                | Option.none, _ =>
                  avail.take n ++ (storePage avail (min 100 (m - (avail.take n).length)) co).items
                | Option.some _, [] =>
                  avail.take n ++ (storePage avail (min 100 (m - (avail.take n).length)) co).items
                | Option.some c, _ :: _ =>
                  fetchLoop avail m fuel
                    (avail.take n ++ (storePage avail (min 100 (m - (avail.take n).length)) co).items)
                    (Option.some c)
              else avail.take n) := rfl
        cases hpagee : page with
        | nil =>
          rw [hpagee] at hplpos
          simp at hplpos
        | cons p0 ps =>
          by_cases hmore : n + page.length < avail.length
          · -- a further page exists: recurse with the new cursor
            have hstep : fetchLoop avail m (fuel + 1) (avail.take n) co
                = fetchLoop avail m fuel (avail.take n ++ page) (Option.some (n + page.length)) := by
              rw [hunfold, if_pos (by rw [hacc]; exact hlt), hcur, hpos,
                if_pos hmore, hpagee]
            rw [hstep, hacc2]
            have hrec := ih (n + page.length) (Option.some (n + page.length)) rfl
              (fun h => Option.noConfusion h)
              (fun c hc => hmore)
              (by omega)
            rw [hrec]
            have h1 : max (n + page.length) (min m avail.length) = min m avail.length :=
              max_eq_right (le_min hplm (le_of_lt hmore))
            have h2 : max n (min m avail.length) = min m avail.length :=
              max_eq_right (le_min (le_of_lt hlt) (le_of_lt hex))
            rw [h1, h2]
          · -- the store is exhausted exactly at the end of this page
            have hstop : fetchLoop avail m (fuel + 1) (avail.take n) co
                = avail.take n ++ page := by
              rw [hunfold, if_pos (by rw [hacc]; exact hlt), hcur, hpos,
                if_neg hmore, hpagee]
            rw [hstop, hacc2]
            have hlen_eq : n + page.length = avail.length := by omega
            have hminlen : min m avail.length = avail.length :=
              min_eq_right (by omega)
            rw [hlen_eq, hminlen, max_eq_right hnlen]
    · have hmn : min m avail.length ≤ n :=
        le_trans (min_le_left _ _) (by omega)
      have hfl : fetchLoop avail m (fuel + 1) (avail.take n) co = avail.take n := by
        rw [fetchLoop, if_neg (by rw [hacc]; omega)]
      rw [hfl, max_eq_left hmn]

/-- The scan of extractLoop agrees with find? followed by the slot
priority. -/
lemma extractLoop_eq_find (fields : List Field) (cid : String) :
    extractLoop fields cid =
      (match fields.find? (fun f => f.column_id == cid) with
       | Option.some f => specSlotValue f
       | Option.none => Value.null) := by
  induction fields with
  | nil => rfl
  | cons f rest ih =>
    by_cases h : (f.column_id == cid) = true
    · rw [extractLoop, if_pos h, List.find?]
      rw [h]
      cases hval : f.value <;> simp [specSlotValue, hval]
    · rw [extractLoop, if_neg h, List.find?]
      rw [Bool.not_eq_true] at h
      rw [h]
      exact ih

/-- sampleItem1 is a concrete item used by witness instances. -/
def sampleItem1 : Item :=
  ⟨"1", 0, "creator", [create_date_field "C1" (Value.str "2024-12-31")]⟩

/-- singleFieldItem is the record of the round-trip claims: an item whose
field sequence is just the encoded field. -/
def singleFieldItem (f : Field) : Item := ⟨"item", 0, "creator", [f]⟩

/-! Claim theorems. -/

/-- Claim C1, counterexample: the claim fails for the text type.  Encoding
the string hello as a text field and decoding it by its column id yields
null, not the original value, because create_text_field stores the value
under the rich_text key, which extract_field_value never inspects. -/
theorem c1_text_roundtrip_counterexample :
    extract_field_value (singleFieldItem (create_text_field "Col1" (Value.str "hello"))) "Col1"
      = Value.null
    ∧ Value.null ≠ Value.str "hello" :=
  ⟨rfl, fun h => Value.noConfusion h⟩

/-- Claim C1, amended: the round-trip holds for date and checkbox on every
value, and for user and select on every nonempty id list, with a bare
scalar id decoding to its one-element list; for text, decoding the encoded
field returns null. -/
theorem c1_roundtrip_amended :
    (∀ (cid : String) (d : Value),
      extract_field_value (singleFieldItem (create_date_field cid d)) cid = d)
    ∧ (∀ (cid : String) (b : Bool),
      extract_field_value (singleFieldItem (create_checkbox_field cid b)) cid = Value.bool b)
    ∧ (∀ (cid : String) (u : Value) (us : List Value),
      extract_field_value (singleFieldItem (create_user_field cid (u :: us))) cid
        = Value.list (u :: us))
    ∧ (∀ (cid s : String),
      extract_field_value (singleFieldItem (create_user_field cid (asList (Value.str s)))) cid
        = Value.list [Value.str s])
    ∧ (∀ (cid : String) (o : Value) (os : List Value),
      extract_field_value (singleFieldItem (create_select_field cid (o :: os))) cid
        = Value.list (o :: os))
    ∧ (∀ (cid s : String),
      extract_field_value (singleFieldItem (create_select_field cid (asList (Value.str s)))) cid
        = Value.list [Value.str s])
    ∧ (∀ (cid : String) (t : Value),
      extract_field_value (singleFieldItem (create_text_field cid t)) cid = Value.null) := by
  refine ⟨?_, ?_, ?_, ?_, ?_, ?_, ?_⟩ <;>
    intro cid v <;>
    first
      | (intro vs
         simp [extract_field_value, extractLoop, singleFieldItem, create_date_field,
           create_checkbox_field, create_user_field, create_select_field,
           create_text_field, asList])
      | simp [extract_field_value, extractLoop, singleFieldItem, create_date_field,
          create_checkbox_field, create_user_field, create_select_field,
          create_text_field, asList]

/-- Claim C4: decoding scans the field sequence for the first field whose
column id matches and returns the priority-ordered first present slot of
that field, with null when no field matches. -/
theorem c4_extract_scan_priority (item : Item) (column_id : String) :
    extract_field_value item column_id =
      (match item.fields.find? (fun f => f.column_id == column_id) with
       | Option.some f => specSlotValue f
       | Option.none => Value.null) :=
  extractLoop_eq_find item.fields column_id

/-- c5item1 is the first record of the claim C5 scenario: id 1 with select
value High in column C1. -/
def c5item1 : Item := ⟨"1", 0, "creator", [create_select_field "C1" [Value.str "High"]]⟩

/-- c5item2 is the second record of the claim C5 scenario: id 2 with select
value Low in column C1. -/
def c5item2 : Item := ⟨"2", 0, "creator", [create_select_field "C1" [Value.str "Low"]]⟩

/-- Claim C5, counterexample: filtering the two scenario records with the
equals operator and value high matches no record at all, not exactly the
record with id 1: the decoded select value is the list containing High, and
Python stringifies that list with brackets and quotes before comparing. -/
theorem c5_equals_high_counterexample :
    applyFilter [c5item1, c5item2] "C1" "high" "equals" = []
    ∧ applyFilter [c5item1, c5item2] "C1" "high" "equals" ≠ [c5item1] :=
  ⟨rfl, fun h => List.noConfusion h⟩

/-- Claim C5, amended: on the scenario records, equals with value high
matches no record, because the decoded select list stringifies and
lowercases to a bracketed quoted form rather than to high; the contains
operator, by contrast, matches exactly the record with id 1. -/
theorem c5_equals_high_amended :
    applyFilter [c5item1, c5item2] "C1" "high" "equals" = []
    ∧ pyLower (pyStr (extract_field_value c5item1 "C1"))
        = "[" ++ String.mk [singleQuote] ++ "high" ++ String.mk [singleQuote] ++ "]"
    ∧ applyFilter [c5item1, c5item2] "C1" "high" "contains" = [c5item1] :=
  ⟨rfl, rfl, rfl⟩

/-- Claim C6, counterexample: a field definition with the unrecognized type
number is silently dropped: the encoding loop returns normally with no
ValidationError, and the created item's field list contains only the title
field. -/
theorem c6_unknown_type_counterexample :
    buildAdditionalFields [⟨"Col9", "number", Value.int 5⟩] = []
    ∧ create_item_fields "Col10000000" "Task" [⟨"Col9", "number", Value.int 5⟩]
        = [create_text_field "Col10000000" (Value.str "Task")] :=
  ⟨rfl, rfl⟩

/-- Claim C6, amended: for every field definition whose type is not one of
text, date, user, select, checkbox, the encoding loop silently drops the
definition, contributing no field and raising no error. -/
theorem c6_unknown_type_dropped (fd : FieldDef) (rest : List FieldDef)
    (h : fd.type ∉ (["text", "date", "user", "select", "checkbox"] : List String)) :
    buildAdditionalFields (fd :: rest) = buildAdditionalFields rest := by
  simp only [List.mem_cons, List.not_mem_nil, or_false, not_or] at h
  obtain ⟨h1, h2, h3, h4, h5⟩ := h
  simp [buildAdditionalFields, h1, h2, h3, h4, h5]

/-- Claim C6, witness for the amended theorem at the concrete number-typed
definition. -/
theorem c6_unknown_type_dropped_witness :
    ((⟨"Col9", "number", Value.int 5⟩ : FieldDef).type
        ∉ (["text", "date", "user", "select", "checkbox"] : List String))
    ∧ buildAdditionalFields [⟨"Col9", "number", Value.int 5⟩] = buildAdditionalFields [] :=
  ⟨by decide, c6_unknown_type_dropped ⟨"Col9", "number", Value.int 5⟩ [] (by decide)⟩

/-- Claim C10: a filter_operator that is none of the six recognized
operators matches no record: the result is empty and no error is raised
(the match flag stays False through the dispatch). -/
theorem c10_unknown_operator_empty (items : List Item) (cid val op : String)
    (h : op ∉ (["contains", "equals", "not_equals", "not_contains",
                "exists", "not_exists"] : List String)) :
    applyFilter items cid val op = [] := by
  simp only [List.mem_cons, List.not_mem_nil, or_false, not_or] at h
  obtain ⟨h1, h2, h3, h4, h5, h6⟩ := h
  rw [applyFilter, filterLoop_eq_filter]
  have hall : ∀ it : Item, matchesFilter (extract_field_value it cid) op val = false := by
    intro it
    unfold matchesFilter
    simp [h1, h2, h3, h4, h5, h6]
  simp [hall]

/-- Claim C10, witness at a concrete unrecognized operator. -/
theorem c10_unknown_operator_empty_witness :
    (("startswith" : String) ∉ (["contains", "equals", "not_equals", "not_contains",
        "exists", "not_exists"] : List String))
    ∧ applyFilter [sampleItem1] "C1" "2024" "startswith" = [] :=
  ⟨by decide, c10_unknown_operator_empty [sampleItem1] "C1" "2024" "startswith" (by decide)⟩

/-- Claim C2: for the six recognized operators, the filter returns exactly
the records whose decoded field value satisfies the operator predicate of
the spec table (string comparisons lowercased after stringification), and
the result is an order-preserving subsequence of the input. -/
theorem c2_filter_matches_spec_table (items : List Item) (cid val op : String)
    (_hop : op ∈ (["contains", "equals", "not_equals", "not_contains",
                  "exists", "not_exists"] : List String)) :
    applyFilter items cid val op =
      items.filter (fun it => specMatches (extract_field_value it cid) op val)
    ∧ List.Sublist (applyFilter items cid val op) items
    ∧ (∀ it, it ∈ applyFilter items cid val op ↔
        it ∈ items ∧ specMatches (extract_field_value it cid) op val = true) := by
  have he : applyFilter items cid val op =
      items.filter (fun it => specMatches (extract_field_value it cid) op val) := by
    rw [applyFilter, filterLoop_eq_filter]
    simp only [matchesFilter_eq_specMatches]
  refine ⟨he, ?_, ?_⟩
  · rw [he]
    exact List.filter_sublist items
  · intro it
    rw [he]
    simp [List.mem_filter]

/-- Claim C2, witness at the concrete sample record and the equals
operator. -/
theorem c2_filter_matches_spec_table_witness :
    (("equals" : String) ∈ (["contains", "equals", "not_equals", "not_contains",
        "exists", "not_exists"] : List String))
    ∧ (applyFilter [sampleItem1] "C1" "2024-12-31" "equals" =
        List.filter (fun it => specMatches (extract_field_value it "C1") "equals" "2024-12-31")
          [sampleItem1]
      ∧ List.Sublist (applyFilter [sampleItem1] "C1" "2024-12-31" "equals") [sampleItem1]
      ∧ (∀ it, it ∈ applyFilter [sampleItem1] "C1" "2024-12-31" "equals" ↔
          it ∈ [sampleItem1]
          ∧ specMatches (extract_field_value it "C1") "equals" "2024-12-31" = true)) :=
  ⟨by decide, c2_filter_matches_spec_table [sampleItem1] "C1" "2024-12-31" "equals" (by decide)⟩

/-- Claim C9: the exists and not_exists filters partition the record
sequence: their lengths sum to the input length, no record is in both, each
input record is in one of them, and a record passes exists exactly when its
decoded value is neither null nor the empty string. -/
theorem c9_exists_partition (items : List Item) (cid val : String) :
    (applyFilter items cid val "exists").length
        + (applyFilter items cid val "not_exists").length = items.length
    ∧ (∀ it, it ∈ applyFilter items cid val "exists" ↔
        it ∈ items ∧ extract_field_value it cid ≠ Value.null
          ∧ extract_field_value it cid ≠ Value.str "")
    ∧ (∀ it, it ∈ applyFilter items cid val "not_exists" ↔
        it ∈ items ∧ (extract_field_value it cid = Value.null
          ∨ extract_field_value it cid = Value.str ""))
    ∧ (∀ it, ¬(it ∈ applyFilter items cid val "exists"
        ∧ it ∈ applyFilter items cid val "not_exists"))
    ∧ (∀ it, it ∈ items → it ∈ applyFilter items cid val "exists"
        ∨ it ∈ applyFilter items cid val "not_exists") := by
  have hchar1 : ∀ v : Value, ((!(isNone v) && !(pyEqEmptyStr v)) = true)
      ↔ (v ≠ Value.null ∧ v ≠ Value.str "") := by
    intro v
    cases v <;> simp [isNone, pyEqEmptyStr]
  have hchar2 : ∀ v : Value, ((isNone v || pyEqEmptyStr v) = true)
      ↔ (v = Value.null ∨ v = Value.str "") := by
    intro v
    cases v <;> simp [isNone, pyEqEmptyStr]
  have hex : applyFilter items cid val "exists" =
      items.filter (fun it => !(isNone (extract_field_value it cid))
        && !(pyEqEmptyStr (extract_field_value it cid))) := by
    rw [applyFilter, filterLoop_eq_filter]
    exact rfl
  have hnex : applyFilter items cid val "not_exists" =
      items.filter (fun it => isNone (extract_field_value it cid)
        || pyEqEmptyStr (extract_field_value it cid)) := by
    rw [applyFilter, filterLoop_eq_filter]
    exact rfl
  have hm1 : ∀ it, it ∈ applyFilter items cid val "exists" ↔
      it ∈ items ∧ extract_field_value it cid ≠ Value.null
        ∧ extract_field_value it cid ≠ Value.str "" := by
    intro it
    rw [hex, List.mem_filter]
    exact and_congr_right (fun _ => hchar1 _)
  have hm2 : ∀ it, it ∈ applyFilter items cid val "not_exists" ↔
      it ∈ items ∧ (extract_field_value it cid = Value.null
        ∨ extract_field_value it cid = Value.str "") := by
    intro it
    rw [hnex, List.mem_filter]
    exact and_congr_right (fun _ => hchar2 _)
  refine ⟨?_, hm1, hm2, ?_, ?_⟩
  · rw [hex, hnex]
    have hfun : (fun it => isNone (extract_field_value it cid)
          || pyEqEmptyStr (extract_field_value it cid))
        = (fun it => !(!(isNone (extract_field_value it cid))
          && !(pyEqEmptyStr (extract_field_value it cid)))) := by
      funext it
      cases h1 : isNone (extract_field_value it cid) <;>
        cases h2 : pyEqEmptyStr (extract_field_value it cid) <;> rfl
    rw [hfun]
    exact length_filter_partition _ items
  · intro it ⟨h1, h2⟩
    rcases (hm1 it).mp h1 with ⟨-, hne, hne2⟩
    rcases (hm2 it).mp h2 with ⟨-, heq | heq⟩
    · exact hne heq
    · exact hne2 heq
  · intro it hmem
    by_cases h : extract_field_value it cid = Value.null
        ∨ extract_field_value it cid = Value.str ""
    · exact Or.inr ((hm2 it).mpr ⟨hmem, h⟩)
    · push_neg at h
      exact Or.inl ((hm1 it).mpr ⟨hmem, h⟩)

/-- Claim C3: the paginated fetch returns exactly the first
min max_items avail.length records of the store, so it accumulates until
max_items records are reached or the store is exhausted, never overshoots
max_items, and truncates the last page to the exact remaining count; with a
237-item store and max_items 250 it returns 237 records, and with at least
250 items it returns exactly 250. -/
theorem c3_paginated_fetch_exact (avail : List Item) (max_items : Nat) :
    paginatedFetch avail max_items = avail.take (min max_items avail.length)
    ∧ (paginatedFetch avail max_items).length = min max_items avail.length
    ∧ (paginatedFetch avail max_items).length ≤ max_items := by
  have h := fetchLoop_take avail max_items (max_items + 1) 0 Option.none rfl
    (fun _ => rfl) (fun c hc => Option.noConfusion hc) (by omega)
  have hpf : paginatedFetch avail max_items
      = avail.take (max 0 (min max_items avail.length)) := h
  rw [Nat.zero_le _ |> max_eq_right] at hpf
  refine ⟨hpf, ?_, ?_⟩
  · rw [hpf, List.length_take, min_eq_left (min_le_right _ _)]
  · rw [hpf, List.length_take]
    exact le_trans (min_le_left _ _) (min_le_left _ _)

/-- Claim C7: one request produces exactly one outcome, and every failing
outcome is normalized to the single error kind StoreError: a transport
error carries the HTTP error message, a non-2xx status the status error, a
2xx not-ok body the upstream error code (default Unknown error) inside the
message, a 2xx unparsable body the parser message; the call returns data
exactly for a 2xx response whose body parses with ok true. -/
theorem c7_make_request_store_error :
    (∀ msg, make_request (HttpOutcome.transportError msg)
      = Except.error ⟨"HTTP error: " ++ msg⟩)
    ∧ (∀ status ok error payload, statusIsSuccess status = false →
      make_request (HttpOutcome.response status ok error payload)
        = Except.error ⟨"HTTP error: " ++ statusErrMsg status⟩)
    ∧ (∀ status error payload, statusIsSuccess status = true →
      ∃ e : StoreError,
        make_request (HttpOutcome.response status false error payload) = Except.error e
        ∧ strContains e.msg (error.getD "Unknown error") = true)
    ∧ (∀ status msg, statusIsSuccess status = true →
      make_request (HttpOutcome.invalidJson status msg)
        = Except.error ⟨"Request failed: " ++ msg⟩)
    ∧ (∀ o, (∃ d, make_request o = Except.ok d) ↔
      (∃ status error payload,
        o = HttpOutcome.response status true error payload
        ∧ statusIsSuccess status = true)) := by
  refine ⟨fun msg => rfl, ?_, ?_, ?_, ?_⟩
  · intro status ok error payload h
    simp [make_request, h]
  · intro status error payload h
    refine ⟨⟨"Request failed: " ++ ("Slack API error: " ++ error.getD "Unknown error")⟩,
      by simp [make_request, h], ?_⟩
    show strContains ("Request failed: " ++ ("Slack API error: " ++ error.getD "Unknown error"))
      (error.getD "Unknown error") = true
    rw [← String.append_assoc]
    exact strContains_append_right _ _
  · intro status msg h
    simp [make_request, h]
  · intro o
    cases o with
    | transportError msg => simp [make_request]
    | invalidJson status msg =>
      by_cases h : statusIsSuccess status <;> simp [make_request, h]
    | response status ok error payload =>
      by_cases h : statusIsSuccess status
      · cases ok
        · simp [make_request, h]
        · exact ⟨fun _ => ⟨status, error, payload, rfl, h⟩,
            fun _ => ⟨⟨true, error, payload⟩, by simp [make_request, h]⟩⟩
      · simp [make_request, h]

/-- Claim C7, witness: a 2xx not-ok body with error code invalid_auth
yields a StoreError whose message contains invalid_auth. -/
theorem c7_make_request_store_error_witness :
    statusIsSuccess 200 = true
    ∧ (∃ e : StoreError,
        make_request (HttpOutcome.response 200 false (Option.some "invalid_auth") "")
          = Except.error e
        ∧ strContains e.msg ((Option.some "invalid_auth").getD "Unknown error") = true) :=
  ⟨rfl, c7_make_request_store_error.2.2.1 200 (Option.some "invalid_auth") "" rfl⟩

/-- Claim C8: for a nonempty record sequence, the CSV export has one header
line plus one line per record; the header is the three fixed leading
columns followed by the sorted, duplicate-free union of the column ids of
all records; every cell of the header and of every row is wrapped in double
quotes; a decoded list value is joined with comma-space before quoting, and
a null value renders as an empty quoted cell. -/
theorem c8_csv_export_shape (iso : Int → String) (items : List Item)
    (_hne : items ≠ []) :
    (export_csv_lines iso items).length = items.length + 1
    ∧ (export_csv_lines iso items).head? =
        Option.some (String.intercalate "," (headerCells (collectColumns items)))
    ∧ List.Sorted strLeRel (collectColumns items)
    ∧ (collectColumns items).Nodup
    ∧ (∀ c, c ∈ collectColumns items ↔
        ∃ it ∈ items, ∃ f ∈ it.fields, f.column_id = c)
    ∧ (∀ s ∈ headerCells (collectColumns items), ∃ t, s = pyQuote t)
    ∧ (∀ it ∈ items, ∀ s ∈ rowCells iso (collectColumns items) it, ∃ t, s = pyQuote t)
    ∧ (∀ xs : List Value,
        renderCell (Value.list xs) = pyQuote (String.intercalate ", " (xs.map pyStr)))
    ∧ renderCell Value.null = pyQuote "" := by
  refine ⟨?_, rfl, ?_, ?_, ?_, ?_, ?_, fun xs => rfl, rfl⟩
  · simp [export_csv_lines]
  · exact List.sorted_insertionSort strLeRel _
  · exact ((List.perm_insertionSort strLeRel _).nodup_iff).mpr (List.nodup_dedup _)
  · intro c
    rw [collectColumns, (List.perm_insertionSort strLeRel _).mem_iff, List.mem_dedup]
    constructor
    · intro hc
      rcases List.mem_flatten.mp hc with ⟨l, hl, hcl⟩
      rcases List.mem_map.mp hl with ⟨it, hit, rfl⟩
      rcases List.mem_map.mp hcl with ⟨f, hf, rfl⟩
      exact ⟨it, hit, f, hf, rfl⟩
    · rintro ⟨it, hit, f, hf, rfl⟩
      exact List.mem_flatten.mpr ⟨it.fields.map (fun g => g.column_id),
        List.mem_map.mpr ⟨it, hit, rfl⟩, List.mem_map.mpr ⟨f, hf, rfl⟩⟩
  · intro s hs
    rcases List.mem_map.mp hs with ⟨t, -, rfl⟩
    exact ⟨t, rfl⟩
  · intro it _ s hs
    rcases List.mem_cons.mp hs with rfl | hs2
    · exact ⟨it.id, rfl⟩
    rcases List.mem_cons.mp hs2 with rfl | hs3
    · exact ⟨iso it.date_created, rfl⟩
    rcases List.mem_cons.mp hs3 with rfl | hs4
    · exact ⟨it.created_by, rfl⟩
    rcases List.mem_map.mp hs4 with ⟨c, -, rfl⟩
    exact renderCell_quoted _

/-- Claim C8, witness at a concrete one-record export. -/
theorem c8_csv_export_shape_witness :
    (([sampleItem1] : List Item) ≠ [])
    ∧ (export_csv_lines (fun _ => "1970-01-01T00:00:00") [sampleItem1]).length
        = ([sampleItem1] : List Item).length + 1 :=
  ⟨List.cons_ne_nil _ _,
    (c8_csv_export_shape (fun _ => "1970-01-01T00:00:00") [sampleItem1]
      (List.cons_ne_nil _ _)).1⟩

end SlackLists
